import Mathlib

/-!
Verification of the stale-branch discovery and deletion tool
(`src/index.js` of bugron/github-remove-old-branches).

The script is embedded shallowly:
* pure computations (env parsing, age computation, the per-page filter
  pipeline) become Lean functions;
* the interactive run becomes a function from the three prompt inputs and
  the GitHub capabilities (page fetch, branch lookup) to a trace of
  observable events (page fetches, the result-file write, branch-deletion
  attempts, the process exit code);
* the unbounded pagination loop is driven by explicit fuel; a run that
  exhausts its fuel is marked with a distinguished stop reason and no
  claim is made about it.
Machine numbers are modelled as `Int`/`Nat`, and JavaScript's
floating-point age arithmetic as exact rationals (`ℚ`).
-/

namespace GHRemove

/-- A pull request as fetched from the host, with the fields the script
reads: `number`, `title`, `state`, nullable merge timestamp `merged_at`
(milliseconds since epoch; `none` = not merged), head branch `head_ref`,
base branch `base_ref`, `html_url`. -/
structure PullRequest where
  number : Nat
  title : String
  state : String
  merged_at : Option Int
  head_ref : String
  base_ref : String
  html_url : String
deriving DecidableEq

/-- Result of a successful `getBranch` call: the script only ever inspects
the `message` field of the returned object (`'Branch not found'` marks the
sentinel it fabricates in the `catch` arm). -/
structure BranchInfo where
  message : Option String
deriving DecidableEq

/-- A candidate record as built by the pipeline (the object literal at
src/index.js lines 135-144). `age` is in months, kept exact as a rational. -/
structure Candidate where
  state : String
  number : Nat
  title : String
  age : ℚ
  html_url : String
  branch_name : String
  base_branch_name : String
  merged_at : Int
deriving DecidableEq

/-- `FORBIDDEN_HEAD_REFS` (src/index.js line 21). -/
def FORBIDDEN_HEAD_REFS : List String := ["master", "staging"]

/-- `ALLOWED_BASE_REFS` (src/index.js line 24). -/
def ALLOWED_BASE_REFS : List String := ["master"]

/-- `MONTH_IN_SECONDS` (src/index.js line 27): 30 days in seconds. -/
def MONTH_IN_SECONDS : ℚ := 2592000

/-- The local filter of src/index.js line 100:
`!!pr.merged_at && !FORBIDDEN_HEAD_REFS.includes(pr.head.ref) &&
ALLOWED_BASE_REFS.includes(pr.base.ref)`. -/
def localFilter (pr : PullRequest) : Bool :=
  pr.merged_at.isSome && !(FORBIDDEN_HEAD_REFS.contains pr.head_ref)
    && ALLOWED_BASE_REFS.contains pr.base_ref

/-- The branch-existence step (src/index.js lines 101-118): a successful
`getBranch` attaches its `branchInfo`; a thrown error is caught and replaced
by the sentinel `{ message: 'Branch not found' }`. -/
def attachBranchInfo (lookup : String → Except Unit BranchInfo)
    (pr : PullRequest) : PullRequest × BranchInfo :=
  match lookup pr.head_ref with
  | Except.ok bi => (pr, bi)
  | Except.error _ => (pr, ⟨some "Branch not found"⟩)

/-- The branch-found test of src/index.js lines 121-127: records whose
`branchInfo.message` is `'Branch not found'` are dropped (and logged). -/
def branchFound (bi : BranchInfo) : Bool :=
  !(bi.message == some "Branch not found")

/-- Age of a merge timestamp in months (src/index.js lines 131-133):
`(Date.now() - Date.parse(merged_at)) / 1000 / MONTH_IN_SECONDS`,
with both instants in milliseconds. -/
def ageMonths (now mergedAt : Int) : ℚ :=
  (((now - mergedAt : Int) : ℚ) / 1000) / MONTH_IN_SECONDS

/-- The candidate record built from a surviving pull request
(src/index.js lines 128-145). -/
def mkCandidate (now : Int) (pr : PullRequest) : Candidate :=
  { state := pr.state
    number := pr.number
    title := pr.title
    age := ageMonths now (pr.merged_at.getD 0)
    html_url := pr.html_url
    branch_name := pr.head_ref
    base_branch_name := pr.base_ref
    merged_at := pr.merged_at.getD 0 }

/-- One page through the filter pipeline (src/index.js lines 97-146), in
the source's stage order: local filter (merged / blacklist / allowlist),
branch-existence attachment, branch-found filter, candidate construction,
age filter `pr.age >= AGE_IN_MONTHS`. -/
def processPage (lookup : String → Except Unit BranchInfo)
    (now ageT : Int) (page : List PullRequest) : List Candidate :=
  ((((page.filter localFilter).map (attachBranchInfo lookup)).filter
      (fun pb => branchFound pb.2)).map
      (fun pb => mkCandidate now pb.1)).filter
    (fun c => (ageT : ℚ) ≤ c.age)

/-- Number of `'Branch not found'` log lines emitted while filtering one
page (the `console.log` at src/index.js line 123 fires once per dropped
record). -/
def branchNotFoundLogs (lookup : String → Except Unit BranchInfo)
    (page : List PullRequest) : Nat :=
  (((page.filter localFilter).map (attachBranchInfo lookup)).filter
      (fun pb => !branchFound pb.2)).length

/-- Why the pagination loop (src/index.js lines 86-157) stopped. -/
inductive StopReason where
  | noMoreData
  | capReached
  | fuelOut
deriving DecidableEq

/-- Outcome of the pagination loop: the accumulated candidate list
(`mergedPRs`), the page numbers fetched in order, and the stop reason. -/
structure RunResult where
  candidates : List Candidate
  pages : List Nat
  reason : StopReason
deriving DecidableEq

/-- The pagination loop of src/index.js lines 86-157, with explicit fuel.
Each iteration fetches `config.page`; an empty page breaks the loop; a
nonempty page is filtered whole and appended to `mergedPRs`; the cap check
`mergedPRs.length >= MAX_COUNT` runs after the append, and only otherwise
is `config.page` incremented by 1. -/
def runPages (fetch : Nat → List PullRequest)
    (lookup : String → Except Unit BranchInfo) (now ageT maxCount : Int) :
    Nat → Nat → List Candidate → RunResult
  | 0, _, acc => ⟨acc, [], StopReason.fuelOut⟩
  | fuel + 1, page, acc =>
    let pulls := fetch page
    if pulls = [] then ⟨acc, [page], StopReason.noMoreData⟩
    else
      let acc' := acc ++ processPage lookup now ageT pulls
      if maxCount ≤ (acc'.length : Int) then ⟨acc', [page], StopReason.capReached⟩
      else
        let r := runPages fetch lookup now ageT maxCount fuel (page + 1) acc'
        ⟨r.candidates, page :: r.pages, r.reason⟩

/-- The whole discovery phase: the pagination loop started at page 1 with
an empty accumulator (src/index.js lines 80-84). -/
def discovery (fetch : Nat → List PullRequest)
    (lookup : String → Except Unit BranchInfo)
    (now ageT maxCount : Int) (fuel : Nat) : RunResult :=
  runPages fetch lookup now ageT maxCount fuel 1 []

/-- Observable events of one run: a page fetch, the single
`fs.writeFileSync` of the candidate list, a `deleteRef` attempt on a
branch, and the process exit code. -/
inductive Event where
  | fetchPage (page : Nat)
  | writeFile (candidates : List Candidate)
  | deleteRef (branch : String)
  | exitCode (code : Nat)
deriving DecidableEq

/-- Mode resolution at the first prompt (src/index.js lines 42-47): empty
input defaults to `DRYRUN`. -/
def resolveMode (modeInput : String) : String :=
  if modeInput = "" then "DRYRUN" else modeInput

/-- The full interactive run as an event trace, following src/index.js
lines 42-196: an unrecognized mode exits 1; in NUKE mode a run-confirmation
other than `YES I DO` exits 1; otherwise the pagination loop runs, the
candidate list is written to `./merged-prs.json`, and then DRYRUN only
logs while NUKE asks for the final confirmation — any answer other than
`NUKE` reaches the bare `process.exit()` (exit code 0), and `NUKE`
triggers one `deleteRef` attempt per accumulated candidate, in order,
before the normal exit. -/
def run (modeInput runConfirm nukeConfirm : String)
    (fetch : Nat → List PullRequest)
    (lookup : String → Except Unit BranchInfo)
    (now ageT maxCount : Int) (fuel : Nat) : List Event :=
  if (["DRYRUN", "NUKE"] : List String).contains (resolveMode modeInput) = false
  then [Event.exitCode 1]
  else if resolveMode modeInput = "NUKE" ∧ runConfirm ≠ "YES I DO"
  then [Event.exitCode 1]
  else
    let r := discovery fetch lookup now ageT maxCount fuel
    (r.pages.map Event.fetchPage) ++ Event.writeFile r.candidates ::
      (if resolveMode modeInput = "NUKE" then
        if nukeConfirm ≠ "NUKE" then [Event.exitCode 0]
        else r.candidates.map (fun c => Event.deleteRef c.branch_name)
          ++ [Event.exitCode 0]
      else [Event.exitCode 0])

/-- Recognizer for the result-file write event. -/
def isWrite : Event → Bool
  | Event.writeFile _ => true
  | _ => false

/-- Recognizer for a branch-deletion attempt event. -/
def isDelete : Event → Bool
  | Event.deleteRef _ => true
  | _ => false

/-- The deletion loop of src/index.js lines 173-184: one `deleteRef`
attempt per candidate, sequentially, each wrapped in `try`/`catch`; the
outcome (`true` = deleted, `false` = the logged error) is recorded and the
loop continues. -/
def runDeletions (del : String → Except Unit Unit) :
    List Candidate → List (String × Bool)
  | [] => []
  | c :: rest =>
    (match del c.branch_name with
     | Except.ok _ => (c.branch_name, true)
     | Except.error _ => (c.branch_name, false)) :: runDeletions del rest

/-- JavaScript `parseInt(s, 10)`: skip leading whitespace, take an
optional sign, then the longest prefix of decimal digits; `none` (NaN)
when no digit follows. -/
def parseIntJS (s : String) : Option Int :=
  let cs := s.data.dropWhile (fun c => c.isWhitespace)
  let signed : Int × List Char :=
    match cs with
    | '-' :: rest => (-1, rest)
    | '+' :: rest => (1, rest)
    | _ => (1, cs)
  let ds := signed.2.takeWhile (fun c => c.isDigit)
  if ds = [] then none
  else some (signed.1 *
    (ds.foldl (fun acc c => acc * 10 + (c.toNat - 48)) 0 : Nat))

/-- The `parseInt(...) || default` idiom of src/index.js lines 29-35: both
NaN and 0 are falsy, so either falls back to the default. -/
def envInt (s : String) (default : Int) : Int :=
  match parseIntJS s with
  | none => default
  | some 0 => default
  | some n => n

/-- `AGE_IN_MONTHS` (src/index.js line 29) as a function of the
environment string. -/
def AGE_IN_MONTHS (env : String) : Int := envInt env 3

/-- `MAX_COUNT` (src/index.js line 32) as a function of the environment
string. -/
def MAX_COUNT (env : String) : Int := envInt env 100

/-- `PER_PAGE_COUNT` (src/index.js line 35) as a function of the
environment string. -/
def PER_PAGE_COUNT (env : String) : Int := envInt env 30

/-! ### Concrete fixtures used by the witness theorems -/

/-- A reference instant: 4 months (in the script's 30-day months) after
the epoch, in milliseconds. -/
def nowEx : Int := 10368000000

/-- A merged pull request 4 months old, against `master`, head
`feature-a`. -/
def prA : PullRequest :=
  ⟨1, "Add feature", "closed", some 0, "feature-a", "master", "http://x/1"⟩

/-- A merged pull request exactly 3 months old at `nowEx`. -/
def prBoundary : PullRequest :=
  ⟨2, "Boundary", "closed", some 2592000000, "feature-b", "master", "http://x/2"⟩

/-- A merged pull request one millisecond younger than 3 months at
`nowEx`. -/
def prYoung : PullRequest :=
  ⟨3, "Young", "closed", some 2592000001, "feature-c", "master", "http://x/3"⟩

/-- A second 4-month-old merged pull request sharing `feature-a` as head
branch with `prA`. -/
def prA2 : PullRequest :=
  ⟨4, "Fix feature", "closed", some 0, "feature-a", "master", "http://x/4"⟩

/-- A branch lookup that always succeeds. -/
def lookupOk : String → Except Unit BranchInfo := fun _ => Except.ok ⟨none⟩

/-- A branch lookup that always throws. -/
def lookupFail : String → Except Unit BranchInfo := fun _ => Except.error ()

/-- A fetch capability: one page with a single qualifying pull request. -/
def fetchOne : Nat → List PullRequest := fun p => if p = 1 then [prA] else []

/-- A fetch capability that never returns data. -/
def fetchEmpty : Nat → List PullRequest := fun _ => []

/-- A fetch capability: one page with two merged pull requests sharing the
same head branch. -/
def fetchDup : Nat → List PullRequest :=
  fun p => if p = 1 then [prA, prA2] else []

/-- Surviving candidates of the pages `start, start+1, …, start+len-1`,
concatenated in fetch order. -/
def pagesCands (fetch : Nat → List PullRequest)
    (lookup : String → Except Unit BranchInfo)
    (now ageT : Int) (start len : Nat) : List Candidate :=
  ((List.range' start len).map
    (fun p => processPage lookup now ageT (fetch p))).flatten

/-! ### Structural lemmas about the pagination loop -/

theorem pagesCands_zero (fetch lookup now ageT start) :
    pagesCands fetch lookup now ageT start 0 = [] := rfl

theorem pagesCands_succ (fetch lookup now ageT start len) :
    pagesCands fetch lookup now ageT start (len + 1) =
      processPage lookup now ageT (fetch start) ++
        pagesCands fetch lookup now ageT (start + 1) len := by
  simp [pagesCands, List.range'_succ]

theorem processPage_nil (lookup now ageT) :
    processPage lookup now ageT [] = [] := rfl

/-- The fetched page numbers are consecutive, starting at the loop's
start page. -/
theorem runPages_pages_consecutive (fetch lookup now ageT maxCount) :
    ∀ fuel page acc,
      (runPages fetch lookup now ageT maxCount fuel page acc).pages =
        List.range' page
          (runPages fetch lookup now ageT maxCount fuel page acc).pages.length := by
  intro fuel
  induction fuel with
  | zero => intro page acc; rfl
  | succ n ih =>
    intro page acc
    rw [runPages]
    by_cases hE : fetch page = []
    · simp [hE, List.range'_succ]
    · rw [if_neg hE]
      by_cases hC : maxCount ≤
          ((acc ++ processPage lookup now ageT (fetch page)).length : Int)
      · rw [if_pos hC]; simp [List.range'_succ]
      · rw [if_neg hC]
        simp only [List.length_cons, List.range'_succ]
        rw [← ih (page + 1) (acc ++ processPage lookup now ageT (fetch page))]

/-- The accumulated list after the loop is the incoming accumulator
followed by the survivors of every fetched page, in order. -/
theorem runPages_candidates_eq (fetch lookup now ageT maxCount) :
    ∀ fuel page acc,
      (runPages fetch lookup now ageT maxCount fuel page acc).candidates =
        acc ++ pagesCands fetch lookup now ageT page
          (runPages fetch lookup now ageT maxCount fuel page acc).pages.length := by
  intro fuel
  induction fuel with
  | zero => intro page acc; simp [runPages, pagesCands_zero]
  | succ n ih =>
    intro page acc
    rw [runPages]
    by_cases hE : fetch page = []
    · simp [hE, pagesCands_succ, pagesCands_zero, processPage_nil]
    · rw [if_neg hE]
      by_cases hC : maxCount ≤
          ((acc ++ processPage lookup now ageT (fetch page)).length : Int)
      · rw [if_pos hC]; simp [pagesCands_succ, pagesCands_zero]
      · rw [if_neg hC]
        simp only [List.length_cons]
        rw [ih (page + 1) (acc ++ processPage lookup now ageT (fetch page)),
          pagesCands_succ, List.append_assoc]

/-- Before every page except the last fetched one, neither termination
condition held: the page was nonempty and the accumulated count was still
below the cap after processing it. -/
theorem runPages_intermediate (fetch lookup now ageT maxCount) :
    ∀ fuel page acc k,
      k + 1 < (runPages fetch lookup now ageT maxCount fuel page acc).pages.length →
      fetch (page + k) ≠ [] ∧
      ((acc ++ pagesCands fetch lookup now ageT page (k + 1)).length : Int) < maxCount := by
  intro fuel
  induction fuel with
  | zero => intro page acc k hk; simp [runPages] at hk
  | succ n ih =>
    intro page acc k hk
    rw [runPages] at hk
    by_cases hE : fetch page = []
    · rw [if_pos hE] at hk; simp at hk
    · rw [if_neg hE] at hk
      by_cases hC : maxCount ≤
          ((acc ++ processPage lookup now ageT (fetch page)).length : Int)
      · rw [if_pos hC] at hk; simp at hk
      · rw [if_neg hC] at hk
        simp only [List.length_cons] at hk
        cases k with
        | zero =>
          refine ⟨by simpa using hE, ?_⟩
          have : acc ++ pagesCands fetch lookup now ageT page 1 =
              acc ++ processPage lookup now ageT (fetch page) := by
            rw [pagesCands_succ, pagesCands_zero, List.append_nil]
          rw [this]
          omega
        | succ j =>
          have hk' : j + 1 <
              (runPages fetch lookup now ageT maxCount n (page + 1)
                (acc ++ processPage lookup now ageT (fetch page))).pages.length := by
            omega
          have hih := ih (page + 1)
            (acc ++ processPage lookup now ageT (fetch page)) j hk'
          have hpage : page + 1 + j = page + (j + 1) := by omega
          have hcands : (acc ++ processPage lookup now ageT (fetch page)) ++
              pagesCands fetch lookup now ageT (page + 1) (j + 1) =
              acc ++ pagesCands fetch lookup now ageT page (j + 1 + 1) := by
            rw [pagesCands_succ fetch lookup now ageT page (j + 1),
              List.append_assoc]
          rw [hpage, hcands] at hih
          exact hih

/-- When the loop stops for lack of data, the last fetched page was
empty. -/
theorem runPages_noMoreData (fetch lookup now ageT maxCount) :
    ∀ fuel page acc,
      (runPages fetch lookup now ageT maxCount fuel page acc).reason =
        StopReason.noMoreData →
      ∃ p, (runPages fetch lookup now ageT maxCount fuel page acc).pages.getLast? =
        some p ∧ fetch p = [] := by
  intro fuel
  induction fuel with
  | zero => intro page acc h; simp [runPages] at h
  | succ n ih =>
    intro page acc h
    rw [runPages] at h ⊢
    by_cases hE : fetch page = []
    · rw [if_pos hE] at h ⊢
      exact ⟨page, by simp, hE⟩
    · rw [if_neg hE] at h ⊢
      by_cases hC : maxCount ≤
          ((acc ++ processPage lookup now ageT (fetch page)).length : Int)
      · rw [if_pos hC] at h; simp at h
      · rw [if_neg hC] at h ⊢
        dsimp only at h ⊢
        obtain ⟨p, hlast, hfp⟩ := ih (page + 1)
          (acc ++ processPage lookup now ageT (fetch page)) h
        refine ⟨p, ?_, hfp⟩
        rcases hr : (runPages fetch lookup now ageT maxCount n (page + 1)
            (acc ++ processPage lookup now ageT (fetch page))).pages with _ | ⟨b, t⟩
        · rw [hr] at hlast; simp at hlast
        · rw [hr] at hlast
          rw [List.getLast?_cons_cons]
          exact hlast

/-- When the loop stops at the cap, the cap is met or exceeded and the
final accumulator ends with the complete survivor list of the last fetched
page — no truncation within that page. -/
theorem runPages_capReached (fetch lookup now ageT maxCount) :
    ∀ fuel page acc,
      (runPages fetch lookup now ageT maxCount fuel page acc).reason =
        StopReason.capReached →
      maxCount ≤
        ((runPages fetch lookup now ageT maxCount fuel page acc).candidates.length : Int) ∧
      ∃ done p,
        (runPages fetch lookup now ageT maxCount fuel page acc).pages.getLast? =
          some p ∧
        (runPages fetch lookup now ageT maxCount fuel page acc).candidates =
          done ++ processPage lookup now ageT (fetch p) := by
  intro fuel
  induction fuel with
  | zero => intro page acc h; simp [runPages] at h
  | succ n ih =>
    intro page acc h
    rw [runPages] at h ⊢
    by_cases hE : fetch page = []
    · rw [if_pos hE] at h; simp at h
    · rw [if_neg hE] at h ⊢
      by_cases hC : maxCount ≤
          ((acc ++ processPage lookup now ageT (fetch page)).length : Int)
      · rw [if_pos hC] at h ⊢
        exact ⟨hC, acc, page, by simp, rfl⟩
      · rw [if_neg hC] at h ⊢
        dsimp only at h ⊢
        obtain ⟨hcap, done, p, hlast, hcands⟩ := ih (page + 1)
          (acc ++ processPage lookup now ageT (fetch page)) h
        refine ⟨hcap, done, p, ?_, hcands⟩
        rcases hr : (runPages fetch lookup now ageT maxCount n (page + 1)
            (acc ++ processPage lookup now ageT (fetch page))).pages with _ | ⟨b, t⟩
        · rw [hr] at hlast; simp at hlast
        · rw [hr] at hlast
          rw [List.getLast?_cons_cons]
          exact hlast

/-! ### Helper lemmas about the run trace -/

theorem attachBranchInfo_fst (lookup : String → Except Unit BranchInfo)
    (pr : PullRequest) : (attachBranchInfo lookup pr).1 = pr := by
  unfold attachBranchInfo
  split <;> rfl

theorem resolveMode_eq_nuke {mi : String} (h : resolveMode mi = "NUKE") :
    mi = "NUKE" := by
  unfold resolveMode at h
  split at h
  · exact absurd h (by decide)
  · exact h

theorem fetchEvents_filter_isWrite (l : List Nat) :
    (l.map Event.fetchPage).filter isWrite = [] := by
  induction l with
  | nil => rfl
  | cons a t ih => simp [isWrite, ih]

theorem fetchEvents_filter_isDelete (l : List Nat) :
    (l.map Event.fetchPage).filter isDelete = [] := by
  induction l with
  | nil => rfl
  | cons a t ih => simp [isDelete, ih]

theorem deleteEvents_filter_isDelete (l : List Candidate) :
    (l.map (fun c => Event.deleteRef c.branch_name)).filter isDelete =
      l.map (fun c => Event.deleteRef c.branch_name) := by
  induction l with
  | nil => rfl
  | cons a t ih => simp [isDelete, ih]

theorem deleteEvents_filter_isWrite (l : List Candidate) :
    (l.map (fun c => Event.deleteRef c.branch_name)).filter isWrite = [] := by
  induction l with
  | nil => rfl
  | cons a t ih => simp [isWrite, ih]

/-! ### The claims -/

/-- C1: a `deleteRef` attempt occurs in a run's trace only when the
selected mode input was the literal `NUKE`, the run confirmation was the
literal `YES I DO`, and the final nuke confirmation was the literal
`NUKE`; in DRYRUN mode or with any differing confirmation input no
deletion is ever performed. -/
theorem deletion_requires_double_confirmation
    (mi rc nc : String) (fetch : Nat → List PullRequest)
    (lookup : String → Except Unit BranchInfo)
    (now ageT maxCount : Int) (fuel : Nat) (b : String)
    (h : Event.deleteRef b ∈ run mi rc nc fetch lookup now ageT maxCount fuel) :
    mi = "NUKE" ∧ rc = "YES I DO" ∧ nc = "NUKE" := by
  unfold run at h
  by_cases h1 : (["DRYRUN", "NUKE"] : List String).contains (resolveMode mi) = false
  · rw [if_pos h1] at h; simp at h
  · rw [if_neg h1] at h
    by_cases h2 : resolveMode mi = "NUKE" ∧ rc ≠ "YES I DO"
    · rw [if_pos h2] at h; simp at h
    · rw [if_neg h2] at h
      dsimp only at h
      rcases List.mem_append.mp h with hf | hw
      · obtain ⟨p, _, hp⟩ := List.mem_map.mp hf
        simp at hp
      · rcases List.mem_cons.mp hw with hw0 | htail
        · simp at hw0
        · by_cases h3 : resolveMode mi = "NUKE"
          · rw [if_pos h3] at htail
            by_cases h4 : nc ≠ "NUKE"
            · rw [if_pos h4] at htail; simp at htail
            · push_neg at h4
              refine ⟨resolveMode_eq_nuke h3, ?_, h4⟩
              by_contra hrc
              exact h2 ⟨h3, hrc⟩
          · rw [if_neg h3] at htail; simp at htail

/-- Witness for C1: a fully confirmed NUKE run over one qualifying pull
request does attempt a deletion, and the theorem recovers the three
confirmation literals from it. -/
theorem deletion_requires_double_confirmation_witness :
    Event.deleteRef "feature-a" ∈
      run "NUKE" "YES I DO" "NUKE" fetchOne lookupOk nowEx 3 100 3 ∧
    ("NUKE" : String) = "NUKE" ∧ ("YES I DO" : String) = "YES I DO" ∧
    ("NUKE" : String) = "NUKE" := by
  have hmem : Event.deleteRef "feature-a" ∈
      run "NUKE" "YES I DO" "NUKE" fetchOne lookupOk nowEx 3 100 3 := by
    rw [show run "NUKE" "YES I DO" "NUKE" fetchOne lookupOk nowEx 3 100 3 =
      [Event.fetchPage 1, Event.fetchPage 2,
       Event.writeFile [mkCandidate nowEx prA],
       Event.deleteRef "feature-a", Event.exitCode 0] from by
        with_unfolding_all rfl]
    simp
  exact ⟨hmem, deletion_requires_double_confirmation "NUKE" "YES I DO" "NUKE"
    fetchOne lookupOk nowEx 3 100 3 "feature-a" hmem⟩

/-- C2 counterexample: rejecting the final nuke confirmation (mode `NUKE`,
run confirmation `YES I DO`, nuke confirmation `X`) reaches the bare
`process.exit()` of src/index.js line 170, so the process exits with code
0, not 1 as the claim states. -/
theorem nuke_gate_exit_code_counterexample :
    Event.exitCode 1 ∉
      run "NUKE" "YES I DO" "X" fetchEmpty lookupOk nowEx 3 100 3 ∧
    Event.exitCode 0 ∈
      run "NUKE" "YES I DO" "X" fetchEmpty lookupOk nowEx 3 100 3 := by
  rw [show run "NUKE" "YES I DO" "X" fetchEmpty lookupOk nowEx 3 100 3 =
    [Event.fetchPage 1, Event.writeFile [], Event.exitCode 0] from by
      with_unfolding_all rfl]
  constructor
  · simp
  · simp

/-- C2 (amended): an unrecognized mode token and a rejected run
confirmation in `NUKE` mode exit with code 1; a rejected final nuke
confirmation instead exits with code 0 (the argument-less `process.exit()`
of src/index.js line 170), the same code as normal completion in either
mode. -/
theorem gate_exit_codes (mi rc nc : String) (fetch : Nat → List PullRequest)
    (lookup : String → Except Unit BranchInfo)
    (now ageT maxCount : Int) (fuel : Nat) :
    ((["DRYRUN", "NUKE"] : List String).contains (resolveMode mi) = false →
      run mi rc nc fetch lookup now ageT maxCount fuel = [Event.exitCode 1]) ∧
    (resolveMode mi = "NUKE" → rc ≠ "YES I DO" →
      run mi rc nc fetch lookup now ageT maxCount fuel = [Event.exitCode 1]) ∧
    (resolveMode mi = "NUKE" → rc = "YES I DO" → nc ≠ "NUKE" →
      Event.exitCode 0 ∈ run mi rc nc fetch lookup now ageT maxCount fuel ∧
      Event.exitCode 1 ∉ run mi rc nc fetch lookup now ageT maxCount fuel) ∧
    (resolveMode mi = "NUKE" → rc = "YES I DO" → nc = "NUKE" →
      Event.exitCode 0 ∈ run mi rc nc fetch lookup now ageT maxCount fuel ∧
      Event.exitCode 1 ∉ run mi rc nc fetch lookup now ageT maxCount fuel) ∧
    (resolveMode mi = "DRYRUN" →
      Event.exitCode 0 ∈ run mi rc nc fetch lookup now ageT maxCount fuel ∧
      Event.exitCode 1 ∉ run mi rc nc fetch lookup now ageT maxCount fuel) := by
  refine ⟨fun h1 => ?_, fun h3 h2 => ?_, fun h3 h2 h4 => ?_,
    fun h3 h2 h4 => ?_, fun h3 => ?_⟩
  · unfold run
    rw [if_pos h1]
  · unfold run
    rw [if_neg (by simp [h3]), if_pos ⟨h3, h2⟩]
  · unfold run
    rw [if_neg (by simp [h3]), if_neg (by simp [h2])]
    dsimp only
    rw [if_pos h3, if_pos h4]
    constructor
    · simp
    · intro hmem
      rcases List.mem_append.mp hmem with hf | hw
      · obtain ⟨p, _, hp⟩ := List.mem_map.mp hf
        simp at hp
      · simp at hw
  · unfold run
    rw [if_neg (by simp [h3]), if_neg (by simp [h2])]
    dsimp only
    rw [if_pos h3, if_neg (by simp [h4])]
    constructor
    · simp
    · intro hmem
      rcases List.mem_append.mp hmem with hf | hw
      · obtain ⟨p, _, hp⟩ := List.mem_map.mp hf
        simp at hp
      · rcases List.mem_cons.mp hw with hw0 | htail
        · simp at hw0
        · rcases List.mem_append.mp htail with hd | he
          · obtain ⟨c, _, hc⟩ := List.mem_map.mp hd
            simp at hc
          · simp at he
  · unfold run
    rw [if_neg (by simp [h3]), if_neg (by simp [h3])]
    dsimp only
    rw [if_neg (by simp [h3])]
    constructor
    · simp
    · intro hmem
      rcases List.mem_append.mp hmem with hf | hw
      · obtain ⟨p, _, hp⟩ := List.mem_map.mp hf
        simp at hp
      · simp at hw

/-- Witness for C2 (amended): concrete runs exercising the rejected
run-confirmation gate (exit 1) and the rejected nuke gate (exit 0). -/
theorem gate_exit_codes_witness :
    (run "NUKE" "no" "NUKE" fetchEmpty lookupOk nowEx 3 100 3 =
      [Event.exitCode 1]) ∧
    (Event.exitCode 0 ∈
        run "NUKE" "YES I DO" "X" fetchEmpty lookupOk nowEx 3 100 3 ∧
      Event.exitCode 1 ∉
        run "NUKE" "YES I DO" "X" fetchEmpty lookupOk nowEx 3 100 3) := by
  constructor
  · exact (gate_exit_codes "NUKE" "no" "NUKE" fetchEmpty lookupOk
      nowEx 3 100 3).2.1 (by decide) (by decide)
  · exact (gate_exit_codes "NUKE" "YES I DO" "X" fetchEmpty lookupOk
      nowEx 3 100 3).2.2.1 (by decide) rfl (by decide)

/-- C9: in every run that passes the mode and run-confirmation gates (and
so reaches the end of discovery), the trace contains exactly one
result-file write, its payload is the full candidate list, and every
deletion attempt comes after it; this holds in both modes, in particular
when the final nuke confirmation is rejected. -/
theorem write_once_before_deletions (mi rc nc : String)
    (fetch : Nat → List PullRequest)
    (lookup : String → Except Unit BranchInfo)
    (now ageT maxCount : Int) (fuel : Nat)
    (hmode : (["DRYRUN", "NUKE"] : List String).contains (resolveMode mi) = true)
    (hrc : resolveMode mi = "NUKE" → rc = "YES I DO") :
    ∃ A B, run mi rc nc fetch lookup now ageT maxCount fuel =
        A ++ Event.writeFile
          (discovery fetch lookup now ageT maxCount fuel).candidates :: B ∧
      A.filter isWrite = [] ∧ B.filter isWrite = [] ∧
      A.filter isDelete = [] := by
  unfold run
  rw [if_neg (by rw [hmode]; decide),
    if_neg (fun hand => hand.2 (hrc hand.1))]
  dsimp only
  refine ⟨(discovery fetch lookup now ageT maxCount fuel).pages.map
      Event.fetchPage, _, rfl, fetchEvents_filter_isWrite _, ?_,
    fetchEvents_filter_isDelete _⟩
  by_cases h3 : resolveMode mi = "NUKE"
  · rw [if_pos h3]
    by_cases h4 : nc ≠ "NUKE"
    · rw [if_pos h4]; rfl
    · rw [if_neg h4]
      rw [List.filter_append, deleteEvents_filter_isWrite]
      rfl
  · rw [if_neg h3]; rfl

/-- Witness for C9: the gates pass in a NUKE run whose final confirmation
is rejected, and the write of the full candidate list still happens, with
no deletion before it. -/
theorem write_once_before_deletions_witness :
    ((["DRYRUN", "NUKE"] : List String).contains (resolveMode "NUKE") = true) ∧
    ∃ A B, run "NUKE" "YES I DO" "X" fetchOne lookupOk nowEx 3 100 3 =
        A ++ Event.writeFile
          (discovery fetchOne lookupOk nowEx 3 100 3).candidates :: B ∧
      A.filter isWrite = [] ∧ B.filter isWrite = [] ∧
      A.filter isDelete = [] := by
  refine ⟨by decide, ?_⟩
  exact write_once_before_deletions "NUKE" "YES I DO" "X" fetchOne lookupOk
    nowEx 3 100 3 (by decide) (fun _ => rfl)

/-- C5 counterexample: two merged pull requests sharing head branch
`feature-a` (both 4 months old, base `master`, branch present) yield two
candidate records for the same branch name, and a fully confirmed NUKE run
attempts its deletion twice — the accumulated list does double-count. -/
theorem branch_double_count_counterexample :
    ((discovery fetchDup lookupOk nowEx 3 100 3).candidates.filter
      (fun c => c.branch_name == "feature-a")).length = 2 ∧
    ((run "NUKE" "YES I DO" "NUKE" fetchDup lookupOk nowEx 3 100 3).filter
      (fun e => e == Event.deleteRef "feature-a")).length = 2 := by
  constructor
  · with_unfolding_all rfl
  · with_unfolding_all rfl

/-- C5 (amended): the pipeline does not deduplicate: a branch name appears
in the accumulated candidate list once per merged pull request that
survives the filters with that head branch, and a fully confirmed NUKE run
attempts exactly one deletion per candidate record — hence possibly
several attempts for the same branch name. -/
theorem deletions_once_per_candidate_record (mi rc nc : String)
    (fetch : Nat → List PullRequest)
    (lookup : String → Except Unit BranchInfo)
    (now ageT maxCount : Int) (fuel : Nat)
    (h1 : mi = "NUKE") (h2 : rc = "YES I DO") (h3 : nc = "NUKE") :
    (run mi rc nc fetch lookup now ageT maxCount fuel).filter isDelete =
      (discovery fetch lookup now ageT maxCount fuel).candidates.map
        (fun c => Event.deleteRef c.branch_name) := by
  subst h1; subst h2; subst h3
  unfold run
  rw [if_neg (by decide), if_neg (by decide)]
  dsimp only
  rw [if_pos (by decide), if_neg (by decide)]
  rw [List.filter_append, fetchEvents_filter_isDelete, List.nil_append,
    List.filter_cons_of_neg (by simp [isDelete])]
  rw [List.filter_append, deleteEvents_filter_isDelete]
  simp [isDelete]

/-- Witness for C5 (amended): on the duplicated-head fixture the deletion
attempts are exactly one per candidate record. -/
theorem deletions_once_per_candidate_record_witness :
    ("NUKE" : String) = "NUKE" ∧
    (run "NUKE" "YES I DO" "NUKE" fetchDup lookupOk nowEx 3 100 3).filter
        isDelete =
      (discovery fetchDup lookupOk nowEx 3 100 3).candidates.map
        (fun c => Event.deleteRef c.branch_name) :=
  ⟨rfl, deletions_once_per_candidate_record "NUKE" "YES I DO" "NUKE"
    fetchDup lookupOk nowEx 3 100 3 rfl rfl rfl⟩

/-- C6: the paginator fetches consecutive pages 1, 2, … with no skips or
re-fetches; before every page but the last, neither termination condition
held (the page was nonempty and the running count after it was below the
cap); it stops for lack of data exactly when the last fetched page is
empty, and at the cap exactly when the accumulated count has reached
`maxCandidates`, in which case the final page's complete survivor list is
included (no truncation within a page) — and, the trace being exactly the
fetched pages, no further page is fetched. -/
theorem paginator_consecutive_and_termination
    (fetch : Nat → List PullRequest)
    (lookup : String → Except Unit BranchInfo)
    (now ageT maxCount : Int) (fuel : Nat) :
    (discovery fetch lookup now ageT maxCount fuel).pages =
      List.range' 1
        (discovery fetch lookup now ageT maxCount fuel).pages.length ∧
    (∀ k, k + 1 < (discovery fetch lookup now ageT maxCount fuel).pages.length →
      fetch (1 + k) ≠ [] ∧
      ((pagesCands fetch lookup now ageT 1 (k + 1)).length : Int) < maxCount) ∧
    ((discovery fetch lookup now ageT maxCount fuel).reason =
        StopReason.noMoreData →
      ∃ p, (discovery fetch lookup now ageT maxCount fuel).pages.getLast? =
          some p ∧ fetch p = []) ∧
    ((discovery fetch lookup now ageT maxCount fuel).reason =
        StopReason.capReached →
      maxCount ≤
        ((discovery fetch lookup now ageT maxCount fuel).candidates.length : Int) ∧
      ∃ done p,
        (discovery fetch lookup now ageT maxCount fuel).pages.getLast? =
          some p ∧
        (discovery fetch lookup now ageT maxCount fuel).candidates =
          done ++ processPage lookup now ageT (fetch p)) := by
  refine ⟨runPages_pages_consecutive fetch lookup now ageT maxCount fuel 1 [],
    fun k hk => ?_,
    runPages_noMoreData fetch lookup now ageT maxCount fuel 1 [],
    runPages_capReached fetch lookup now ageT maxCount fuel 1 []⟩
  have h := runPages_intermediate fetch lookup now ageT maxCount fuel 1 [] k hk
  simpa using h

/-- Witness for C6: with one qualifying pull request and cap 1, the loop
hits the cap on page 1, includes the whole page, and the cap clause of the
theorem applies. -/
theorem paginator_consecutive_and_termination_witness :
    (discovery fetchOne lookupOk nowEx 3 1 3).reason = StopReason.capReached ∧
    ((1 : Int) ≤ ((discovery fetchOne lookupOk nowEx 3 1 3).candidates.length : Int) ∧
    ∃ done p,
      (discovery fetchOne lookupOk nowEx 3 1 3).pages.getLast? = some p ∧
      (discovery fetchOne lookupOk nowEx 3 1 3).candidates =
        done ++ processPage lookupOk nowEx 3 (fetchOne p)) := by
  have hr : (discovery fetchOne lookupOk nowEx 3 1 3).reason =
      StopReason.capReached := by with_unfolding_all rfl
  exact ⟨hr,
    (paginator_consecutive_and_termination fetchOne lookupOk nowEx 3 1 3).2.2.2 hr⟩

/-- C3: every candidate the pipeline produces satisfies
`ageThreshold ≤ age`, where `age = ((now - mergedAt) / 1000) / 2592000`;
and for a pull request passing the other filters the age boundary is
inclusive: it is kept exactly when its age is at least the threshold (so a
pull request exactly at the threshold is included, a strictly younger one
is excluded). -/
theorem age_filter_inclusive (lookup : String → Except Unit BranchInfo)
    (now ageT : Int) (page : List PullRequest) :
    (∀ c ∈ processPage lookup now ageT page,
      c.age = ageMonths now c.merged_at ∧ (ageT : ℚ) ≤ c.age) ∧
    (∀ pr : PullRequest, localFilter pr = true →
      branchFound (attachBranchInfo lookup pr).2 = true →
      (mkCandidate now pr ∈ processPage lookup now ageT [pr] ↔
        (ageT : ℚ) ≤ (mkCandidate now pr).age)) := by
  constructor
  · intro c hc
    have h1 := List.mem_filter.mp hc
    refine ⟨?_, of_decide_eq_true h1.2⟩
    obtain ⟨pb, _, hpb⟩ := List.mem_map.mp h1.1
    rw [← hpb]
    rfl
  · intro pr hloc hbf
    constructor
    · intro hmem
      exact of_decide_eq_true (List.mem_filter.mp hmem).2
    · intro hage
      apply List.mem_filter.mpr
      refine ⟨?_, decide_eq_true hage⟩
      apply List.mem_map.mpr
      refine ⟨attachBranchInfo lookup pr, ?_, by rw [attachBranchInfo_fst]⟩
      apply List.mem_filter.mpr
      refine ⟨?_, hbf⟩
      apply List.mem_map.mpr
      refine ⟨pr, ?_, rfl⟩
      simp [hloc]

/-- Witness for C3: the boundary pull request (merged exactly 3 months
before `nowEx`) passes the local and branch filters and is included by
the age filter at threshold 3. -/
theorem age_filter_inclusive_witness :
    localFilter prBoundary = true ∧
    branchFound (attachBranchInfo lookupOk prBoundary).2 = true ∧
    mkCandidate nowEx prBoundary ∈ processPage lookupOk nowEx 3 [prBoundary] := by
  refine ⟨by decide, by decide, ?_⟩
  exact ((age_filter_inclusive lookupOk nowEx 3 [prBoundary]).2 prBoundary
    (by decide) (by decide)).mpr (by with_unfolding_all decide)

/-- C4: a candidate is produced from a pull request only if its merge
timestamp is non-null, its head branch is outside the forbidden set and
its base branch is inside the allowed set; and a pull request failing any
one of the three checks contributes nothing to the page's output,
regardless of its other fields. -/
theorem candidate_requires_local_checks
    (lookup : String → Except Unit BranchInfo)
    (now ageT : Int) (page : List PullRequest) :
    (∀ c ∈ processPage lookup now ageT page,
      ∃ pr ∈ page, pr.merged_at.isSome = true ∧
        FORBIDDEN_HEAD_REFS.contains pr.head_ref = false ∧
        ALLOWED_BASE_REFS.contains pr.base_ref = true ∧
        c.branch_name = pr.head_ref ∧ c.base_branch_name = pr.base_ref ∧
        c.number = pr.number) ∧
    (∀ xs ys : List PullRequest, ∀ pr : PullRequest,
      (pr.merged_at = none ∨ FORBIDDEN_HEAD_REFS.contains pr.head_ref = true ∨
        ALLOWED_BASE_REFS.contains pr.base_ref = false) →
      processPage lookup now ageT (xs ++ pr :: ys) =
        processPage lookup now ageT (xs ++ ys)) := by
  constructor
  · intro c hc
    have h1 := List.mem_filter.mp hc
    obtain ⟨pb, hpb1, hpb2⟩ := List.mem_map.mp h1.1
    have h2 := List.mem_filter.mp hpb1
    obtain ⟨pr, hpr1, hpr2⟩ := List.mem_map.mp h2.1
    have h3 := List.mem_filter.mp hpr1
    have hfst : pb.1 = pr := by rw [← hpr2, attachBranchInfo_fst]
    have hc_eq : c = mkCandidate now pr := by rw [← hpb2, hfst]
    have hloc : (pr.merged_at.isSome = true ∧
        (!FORBIDDEN_HEAD_REFS.contains pr.head_ref) = true) ∧
        ALLOWED_BASE_REFS.contains pr.base_ref = true := by
      simpa [localFilter, Bool.and_eq_true] using h3.2
    refine ⟨pr, h3.1, hloc.1.1, by simpa using hloc.1.2, hloc.2, ?_, ?_, ?_⟩
    · rw [hc_eq]; rfl
    · rw [hc_eq]; rfl
    · rw [hc_eq]; rfl
  · intro xs ys pr hfail
    have hloc : localFilter pr = false := by
      rcases hfail with h | h | h
      · simp [localFilter, h]
      · have h' : pr.head_ref ∈ FORBIDDEN_HEAD_REFS := by simpa using h
        simp [localFilter, h']
      · have h' : pr.base_ref ∉ ALLOWED_BASE_REFS := by simpa using h
        simp [localFilter, h']
    unfold processPage
    rw [List.filter_append, List.filter_append,
      List.filter_cons_of_neg (by simp [hloc])]

/-- Witness for C4: the only candidate of a mixed page comes from `prA`,
whose three checks all pass; and dropping a pull request with a forbidden
head branch leaves the output unchanged. -/
theorem candidate_requires_local_checks_witness :
    mkCandidate nowEx prA ∈ processPage lookupOk nowEx 3 [prA] ∧
    (∃ pr ∈ [prA], pr.merged_at.isSome = true ∧
      FORBIDDEN_HEAD_REFS.contains pr.head_ref = false ∧
      ALLOWED_BASE_REFS.contains pr.base_ref = true ∧
      (mkCandidate nowEx prA).branch_name = pr.head_ref ∧
      (mkCandidate nowEx prA).base_branch_name = pr.base_ref ∧
      (mkCandidate nowEx prA).number = pr.number) := by
  have hmem : mkCandidate nowEx prA ∈ processPage lookupOk nowEx 3 [prA] := by
    rw [show processPage lookupOk nowEx 3 [prA] = [mkCandidate nowEx prA] from by
      with_unfolding_all rfl]
    simp
  exact ⟨hmem,
    (candidate_requires_local_checks lookupOk nowEx 3 [prA]).1
      (mkCandidate nowEx prA) hmem⟩

/-- C7: a pull request that survives the local filters but whose branch
lookup fails or reports "not found" is dropped from the page's candidates
while the rest of the page is processed unchanged, one "Branch not found"
log line is emitted for it, and no error reaches the caller (the pipeline
is a total function). -/
theorem lookup_failure_drops_record
    (lookup : String → Except Unit BranchInfo) (now ageT : Int)
    (xs ys : List PullRequest) (pr : PullRequest)
    (hloc : localFilter pr = true)
    (hnf : branchFound (attachBranchInfo lookup pr).2 = false) :
    processPage lookup now ageT (xs ++ pr :: ys) =
      processPage lookup now ageT (xs ++ ys) ∧
    branchNotFoundLogs lookup (xs ++ pr :: ys) =
      branchNotFoundLogs lookup (xs ++ ys) + 1 := by
  constructor
  · unfold processPage
    rw [List.filter_append, List.filter_append,
      List.filter_cons_of_pos (by simp [hloc]), List.map_append,
      List.map_append, List.map_cons, List.filter_append, List.filter_append,
      List.filter_cons_of_neg (by simp [hnf])]
  · unfold branchNotFoundLogs
    rw [List.filter_append, List.filter_append,
      List.filter_cons_of_pos (by simp [hloc]), List.map_append,
      List.map_append, List.map_cons, List.filter_append, List.filter_append,
      List.filter_cons_of_pos (by simp [hnf])]
    simp [List.length_append]
    omega

/-- Witness for C7: with an always-failing lookup, `prA` is dropped from a
page that also contains an unmerged pull request, and one log line is
emitted. -/
theorem lookup_failure_drops_record_witness :
    localFilter prA = true ∧
    branchFound (attachBranchInfo lookupFail prA).2 = false ∧
    (processPage lookupFail nowEx 3 ([] ++ prA :: []) =
      processPage lookupFail nowEx 3 ([] ++ []) ∧
    branchNotFoundLogs lookupFail ([] ++ prA :: []) =
      branchNotFoundLogs lookupFail ([] ++ []) + 1) := by
  refine ⟨by decide, by decide, ?_⟩
  exact lookup_failure_drops_record lookupFail nowEx 3 [] [] prA
    (by decide) (by decide)

/-- C8: the deletion executor walks the candidate list sequentially in
order and performs exactly one deletion attempt per candidate, with no
retries; a failing attempt is recorded as `false` and iteration continues,
so every candidate is attempted whatever the delete capability does —
including one that fails on every branch. -/
theorem deletion_executor_isolated (del : String → Except Unit Unit)
    (cands : List Candidate) :
    runDeletions del cands = cands.map (fun c => (c.branch_name,
      match del c.branch_name with
      | Except.ok _ => true
      | Except.error _ => false)) := by
  induction cands with
  | nil => rfl
  | cons c rest ih =>
    rw [runDeletions, ih, List.map_cons]
    cases del c.branch_name <;> rfl

/-- C10: an environment string that `parseInt` cannot parse, or that
parses to 0, silently falls back to the defaults 3 / 100 / 30 for
`AGE_IN_MONTHS` / `MAX_COUNT` / `PER_PAGE_COUNT`; and none of the three
can ever be configured to zero. -/
theorem env_zero_or_unparsable_defaults (s : String) :
    ((parseIntJS s = none ∨ parseIntJS s = some 0) →
      AGE_IN_MONTHS s = 3 ∧ MAX_COUNT s = 100 ∧ PER_PAGE_COUNT s = 30) ∧
    (AGE_IN_MONTHS s ≠ 0 ∧ MAX_COUNT s ≠ 0 ∧ PER_PAGE_COUNT s ≠ 0) := by
  constructor
  · intro h
    rcases h with h | h
    · simp [AGE_IN_MONTHS, MAX_COUNT, PER_PAGE_COUNT, envInt, h]
    · simp [AGE_IN_MONTHS, MAX_COUNT, PER_PAGE_COUNT, envInt, h]
  · have key : ∀ d : Int, d ≠ 0 → envInt s d ≠ 0 := by
      intro d hd
      unfold envInt
      rcases hp : parseIntJS s with _ | n
      · exact hd
      · by_cases hn : n = 0
        · subst hn; exact hd
        · simp [hn]
    exact ⟨key 3 (by decide), key 100 (by decide), key 30 (by decide)⟩

/-- Witness for C10: the string `"0"` parses to 0, yet all three settings
take their defaults and are nonzero. -/
theorem env_zero_or_unparsable_defaults_witness :
    parseIntJS "0" = some 0 ∧
    (AGE_IN_MONTHS "0" = 3 ∧ MAX_COUNT "0" = 100 ∧ PER_PAGE_COUNT "0" = 30) := by
  refine ⟨by decide, ?_⟩
  exact (env_zero_or_unparsable_defaults "0").1 (Or.inr (by decide))

end GHRemove
